import Mathlib

/-
Verification of the coordinate-frame core of SimpleCADAPI
(src/simplecadapi/core.py and src/simplecadapi/operations.py).

Modelling conventions, used throughout:

* Machine floats are modelled by exact arithmetic in a linear ordered
  field `K` (instantiated at `ℚ` for concrete evaluation).  Every
  comparison the Python code performs on floats (`== 0`, `<= 0`,
  `> 0.9`) is an exact comparison here.
* `numpy` 3-vectors become the structure `Vec3 K`; `np.cross`,
  `np.dot` and the squared Euclidean norm are `cross`, `dot`, `normSq`.
* Euclidean normalisation `v / np.linalg.norm(v)` divides by
  `sqrt (normSq v)`, which has no exact representative in `ℚ`.  It is
  therefore modelled relationally: `Normalizes v u` says that `u` is
  exactly `v` divided by the positive square root of `normSq v`.
  Over `ℝ` such a `u` exists for every nonzero `v`; over `ℚ` it exists
  whenever the norm is rational, which suffices for every concrete
  instance evaluated below.  Guards that the source applies to
  normalised vectors (`norm == 0`, `abs(...) > 0.9`) are expressed in
  the equivalent scale-invariant squared form; the bridging lemmas
  (`orthoWithinSq_iff`, `refVec_smul`, `refVec_unit_gt`,
  `refVec_unit_le`) justify the equivalence.
* Python exceptions become `Except String`; each `raise ValueError`
  keeps (a transliteration of) its source message.

The file is organised as: all definitions first, then all theorems.
-/

set_option linter.unusedSectionVars false

set_option linter.unusedVariables false

namespace SimpleCAD

/-- A 3-vector with components in `K`; models the `numpy` arrays of
length 3 that `core.py` uses for points, directions and axes. -/
structure Vec3 (K : Type) where
  x : K
  y : K
  z : K
deriving DecidableEq, Repr

variable {K : Type} [LinearOrderedField K]

instance : Add (Vec3 K) :=
  ⟨fun u v => ⟨u.x + v.x, u.y + v.y, u.z + v.z⟩⟩

instance : Sub (Vec3 K) :=
  ⟨fun u v => ⟨u.x - v.x, u.y - v.y, u.z - v.z⟩⟩

instance : Neg (Vec3 K) :=
  ⟨fun v => ⟨-v.x, -v.y, -v.z⟩⟩

instance : SMul K (Vec3 K) :=
  ⟨fun a v => ⟨a * v.x, a * v.y, a * v.z⟩⟩

instance : Zero (Vec3 K) :=
  ⟨⟨0, 0, 0⟩⟩

/-- Euclidean dot product (`np.dot`). -/
def dot (u v : Vec3 K) : K :=
  u.x * v.x + u.y * v.y + u.z * v.z

/-- Cross product (`np.cross`). -/
def cross (u v : Vec3 K) : Vec3 K :=
  ⟨u.y * v.z - u.z * v.y, u.z * v.x - u.x * v.z, u.x * v.y - u.y * v.x⟩

/-- Squared Euclidean norm: `np.linalg.norm(v) ** 2`.  The source tests
`np.linalg.norm(v) == 0`, which holds exactly when `normSq v = 0`. -/
def normSq (v : Vec3 K) : K :=
  dot v v

/-- `Normalizes v u` : `u` is the exact result of `v / np.linalg.norm(v)`,
i.e. `u = s⁻¹ • v` for the positive square root `s` of `normSq v`.
This is the relational model of `CoordinateSystem._normalize` on a
nonzero input (on a zero input the source raises instead). -/
def Normalizes (v u : Vec3 K) : Prop :=
  ∃ s : K, 0 < s ∧ s ^ 2 = normSq v ∧ u = s⁻¹ • v

/-- Model of `core.CoordinateSystem` (core.py lines 12-65): an origin
and three axes.  The constructor of the source stores
`x_axis = _normalize(x_axis)`, `y_axis = _normalize(y_axis)` and
`z_axis = _normalize(cross(x_axis, y_axis))`; because the Euclidean
norm is irrational in general, this structure stores the axes as the
*unnormalised direction representatives* delivered to (respectively
computed by) the constructor, and every property about the normalised
axes is stated through the scale-faithful relation `Normalizes`.
Fields that the source computes exactly (e.g. the world frame, whose
axes are already unit) are represented exactly. -/
structure CoordinateSystem (K : Type) where
  origin : Vec3 K
  x_axis : Vec3 K
  y_axis : Vec3 K
  z_axis : Vec3 K
deriving DecidableEq, Repr

/-- Model of `CoordinateSystem.__init__` (core.py lines 20-28):
`_normalize` raises `ValueError("不能归一化零向量")` exactly when the
Euclidean norm of its argument is zero, i.e. when the squared norm is
zero.  The three normalisations happen in order: `x_axis`, `y_axis`,
then the cross product of the two normalised axes.  Since
`cross (sx⁻¹ • x) (sy⁻¹ • y) = (sx * sy)⁻¹ • cross x y` (lemma
`cross_smul_smul`), that third vector is zero exactly when
`cross x y` is zero; the stored representative of `z_axis` is
`cross x y`. -/
def mkCoordinateSystem (origin x_axis y_axis : Vec3 K) :
    Except String (CoordinateSystem K) :=
  if normSq x_axis = 0 then .error "不能归一化零向量"
  else if normSq y_axis = 0 then .error "不能归一化零向量"
  else if normSq (cross x_axis y_axis) = 0 then .error "不能归一化零向量"
  else .ok ⟨origin, x_axis, y_axis, cross x_axis y_axis⟩

/-- Model of `CoordinateSystem.transform_point` (core.py line 40):
`origin + point[0]*x_axis + point[1]*y_axis + point[2]*z_axis`. -/
def transform_point (cs : CoordinateSystem K) (point : Vec3 K) : Vec3 K :=
  cs.origin + point.x • cs.x_axis + point.y • cs.y_axis + point.z • cs.z_axis

/-- The derived vector transform the builders in operations.py use:
`cs.transform_point(v) - cs.origin` (e.g. operations.py line 127). -/
def transform_vec (cs : CoordinateSystem K) (v : Vec3 K) : Vec3 K :=
  transform_point cs v - cs.origin

/-- Model of `CoordinateSystem.to_cq_coords` (core.py lines 42-46):
`(x, y, z) -> (x, z, -y)`.  In the source this is a method that never
reads `self`; it is modelled as a standalone function. -/
def to_cq_coords (point : Vec3 K) : Vec3 K :=
  ⟨point.x, point.z, -point.y⟩

/-- Model of `CoordinateSystem.from_cq_coords` (core.py lines 48-52):
`(x, y, z) -> (x, -z, y)`.  Also independent of `self`. -/
def from_cq_coords (point : Vec3 K) : Vec3 K :=
  ⟨point.x, -point.z, point.y⟩

/-- Model of `WORLD_CS = CoordinateSystem()` (core.py line 69): default
origin `(0,0,0)`, `x_axis = (1,0,0)`, `y_axis = (0,1,0)`; the inputs
are already unit so normalisation leaves them unchanged and
`z_axis = cross((1,0,0),(0,1,0)) = (0,0,1)` exactly. -/
def WORLD_CS : CoordinateSystem K :=
  ⟨⟨0, 0, 0⟩, ⟨1, 0, 0⟩, ⟨0, 1, 0⟩, ⟨0, 0, 1⟩⟩

/-- Model of `get_current_cs` (core.py lines 262-264): returns
`_current_cs[-1]`, the last element of the stack; `none` models the
`IndexError` Python would raise on an empty list. -/
def get_current_cs (stack : List (CoordinateSystem K)) :
    Option (CoordinateSystem K) :=
  stack.getLast?

/-- The dynamic nesting structure of `with LocalCoordinateSystem(...)`
blocks (core.py lines 245-259).  `done` is a body that returns
normally, `panic` a body that raises, and `scope cs body rest` a
`with` block whose manager pushes `cs`, runs `body`, pops on exit
(normal or raising), and continues with `rest` only when `body`
returned normally — exactly the semantics of `__enter__`
(`_current_cs.append`), `__exit__` (`_current_cs.pop()`, run on every
exit path by the `with` statement) and exception propagation. -/
inductive FrameProg (K : Type) where
  | done : FrameProg K
  | panic : FrameProg K
  | scope (cs : CoordinateSystem K) (body rest : FrameProg K) : FrameProg K

/-- Execute a `FrameProg` on a stack; returns the final stack and
whether execution completed without an exception.  Pushing appends at
the end (`list.append`) and popping drops the last element
(`list.pop()`), matching core.py lines 254-259. -/
def runProg : FrameProg K → List (CoordinateSystem K) →
    List (CoordinateSystem K) × Bool
  | .done, s => (s, true)
  | .panic, s => (s, false)
  | .scope cs body rest, s =>
    let r := runProg body (s ++ [cs])
    if r.2 then runProg rest r.1.dropLast else (r.1.dropLast, false)

/-- Scale-invariant squared form of the tolerance check
"`|uu ⬝ vv| ≤ eps` for the normalised `uu`, `vv` of `u`, `v`":
squaring and clearing the (positive) norm denominators turns it into
the polynomial inequality below; `orthoWithinSq_iff` proves the
equivalence. -/
def orthoWithinSq (eps : K) (u v : Vec3 K) : Prop :=
  (dot u v) ^ 2 ≤ eps ^ 2 * (normSq u * normSq v)

/-- Symbolic kernel geometry.  The spec excludes the B-rep kernel
(CADQuery) from the core, so kernel shapes are represented freely:
a base handle, and the affine/boolean/compound constructors that
operations.py delegates to the kernel, recorded with the exact
(already frame-resolved) arguments the source hands over. -/
inductive Geom (K : Type) where
  | base (n : ℕ) : Geom K
  | translated (offset : Vec3 K) (g : Geom K) : Geom K
  | rotated (angle : K) (axis center : Vec3 K) (g : Geom K) : Geom K
  | fused (g1 g2 : Geom K) : Geom K
  | compound (gs : List (Geom K)) : Geom K

/-- Modelled from the spec: the shape wrapper classes (`TaggedMixin`,
`Vertex` … `Solid`, `Compound`) are imported by operations.py from
`.core` but the provided core.py does not define them; per the spec
(§3 Shape) each wrapper owns one kernel handle plus
`tags: set<string>` and `metadata: map<string,Any>`.  Metadata values
are represented by `String` (the merge policy under verification never
inspects values).  One structure stands for every topological kind:
none of the verified claims turns on the kind dispatch. -/
structure TaggedShape (K : Type) where
  geom : Geom K
  tags : Finset String
  metadata : List (String × String)

/-- Modelled from the spec: `add_tag(shape, tag)` inserts into the
shape's tag set, idempotently (Python `set.add`). -/
def add_tag (s : TaggedShape K) (t : String) : TaggedShape K :=
  { s with tags := insert t s.tags }

/-- Python dict lookup on an association list (first matching key;
Python dicts never hold a key twice). -/
def dictLookup : List (String × String) → String → Option String
  | [], _ => none
  | (k, v) :: rest, key => if k = key then some v else dictLookup rest key

/-- Python `dict[k] = v`: replace the value at an existing key, else
append the new binding at the end (insertion order preserved). -/
def dictInsert : List (String × String) → String → String →
    List (String × String)
  | [], k, v => [(k, v)]
  | (k1, v1) :: rest, k, v =>
    if k1 = k then (k1, v) :: rest else (k1, v1) :: dictInsert rest k v

/-- Python `{**a, **b}`: the entries of `a`, then each entry of `b`
inserted in order (so `b` wins on key collisions). -/
def dictMerge (a b : List (String × String)) : List (String × String) :=
  b.foldl (fun acc kv => dictInsert acc kv.1 kv.2) a

/-- First-some choice, the shape of "second dict wins": Python
`b[k] if k in b else a[k]`. -/
def optOr : Option String → Option String → Option String
  | some v, _ => some v
  | none, b => b

def dictKeys (l : List (String × String)) : List String :=
  l.map Prod.fst

/-- Model of `translate_shape` (operations.py lines 761-810): resolves
the current frame, converts `vector` with the vector transform
`cs.transform_point(vector) - cs.origin`, delegates the translation to
the kernel, and copies tags and metadata onto the new wrapper. -/
def translate_shape (cs : CoordinateSystem K) (shape : TaggedShape K)
    (vector : Vec3 K) : TaggedShape K :=
  { geom := .translated (transform_point cs vector - cs.origin) shape.geom
    tags := shape.tags
    metadata := shape.metadata }

/-- Model of `rotate_shape` (operations.py lines 813-869): the axis
goes through the vector transform, the rotation origin through the
point transform, the kernel rotates, and tags/metadata are copied. -/
def rotate_shape (cs : CoordinateSystem K) (shape : TaggedShape K)
    (angle : K) (axis origin : Vec3 K) : TaggedShape K :=
  { geom := .rotated angle (transform_point cs axis - cs.origin)
      (transform_point cs origin) shape.geom
    tags := shape.tags
    metadata := shape.metadata }

/-- Model of `linear_pattern_rcompound` (operations.py lines
1402-1462).  The source validates `count` then `spacing`, normalises
the frame-resolved direction (`Vector(*global_direction).normalized()`),
builds copy `i` by `translate_shape(shape, direction_vec * (spacing*i))`
for `i in range(count)`, collects the copies in a kernel compound, and
copies the original tags/metadata before adding the marker tag.
`direction_vec`, the normalised direction, cannot be computed in exact
rational arithmetic, so it is taken as the extra argument `dhat`; the
claim theorems tie it to `direction` with
`Normalizes (transform_vec cs direction) dhat`. -/
def linear_pattern_rcompound (cs : CoordinateSystem K)
    (shape : TaggedShape K) (direction : Vec3 K) (count : ℤ) (spacing : K)
    (dhat : Vec3 K) : Except String (TaggedShape K) :=
  if count ≤ 0 then .error "阵列数量必须大于0"
  else if spacing ≤ 0 then .error "阵列间距必须大于0"
  else
    let copies := (List.range count.toNat).map
      (fun (i : ℕ) => translate_shape cs shape ((spacing * (i : K)) • dhat))
    .ok (add_tag
      { geom := .compound (copies.map TaggedShape.geom)
        tags := shape.tags
        metadata := shape.metadata } "linear_pattern")

/-- Model of `radial_pattern_rcompound` (operations.py lines
1465-1525): validates `count` then `angle`, sets
`angle_step = angle / count`, builds copy `i` by
`rotate_shape(shape, angle_step * i, axis, center)` for
`i in range(count)` (rotate_shape resolves the current frame itself),
collects the copies in a compound and copies tags/metadata before
adding the marker tag. -/
def radial_pattern_rcompound (cs : CoordinateSystem K)
    (shape : TaggedShape K) (center axis : Vec3 K) (count : ℤ)
    (angle : K) : Except String (TaggedShape K) :=
  if count ≤ 0 then .error "阵列数量必须大于0"
  else if angle ≤ 0 then .error "角度必须大于0"
  else
    let copies := (List.range count.toNat).map
      (fun (i : ℕ) => rotate_shape cs shape (angle / (count : K) * (i : K))
        axis center)
    .ok (add_tag
      { geom := .compound (copies.map TaggedShape.geom)
        tags := shape.tags
        metadata := shape.metadata } "radial_pattern")

/-- Model of `union_rsolid` (operations.py lines 1051-1077): fuses the
two kernel solids (keeping the first solid of a multi-solid result —
kernel behaviour, abstracted into `Geom.fused`), then sets
`result._tags = solid1._tags.union(solid2._tags)` and
`result._metadata = {**solid1._metadata, **solid2._metadata}`.
Python `set.union` and dict unpacking both build fresh objects, so the
inputs are untouched — reflected here by the model being a pure
function of the inputs. -/
def union_rsolid (solid1 solid2 : TaggedShape K) : TaggedShape K :=
  { geom := .fused solid1.geom solid2.geom
    tags := solid1.tags ∪ solid2.tags
    metadata := dictMerge solid1.metadata solid2.metadata }

/-- Model of `mirror_shape` (operations.py lines 1528-1594).  Inside
the `try` block the source first computes
`global_origin = cs.transform_point(...)` (total) and then calls
`cs.transform_vector(np.array(plane_normal))` — but `CoordinateSystem`
(core.py lines 12-65) defines no method `transform_vector`, so Python
raises `AttributeError` on that attribute access, before the zero-normal
check or any kernel call; the blanket `except Exception` re-raises it
as `ValueError("镜像操作失败: ...")`.  Hence the model returns that
error unconditionally. -/
def mirror_shape (cs : CoordinateSystem K) (shape : TaggedShape K)
    (plane_origin plane_normal : Vec3 K) : Except String (TaggedShape K) :=
  .error "镜像操作失败: AttributeError: CoordinateSystem has no attribute transform_vector"

/-- The reference-vector selection of `make_rectangle_rwire`
(operations.py lines 208-213): `if abs(normal_vec[2]) > 0.9` — the
z-component of the NORMALISED normal — `ref_vec = (1,0,0)`, else
`ref_vec = (0,0,1)`.  Written in the equivalent scale-invariant
squared form `81 * normSq n < 100 * n.z²` (for a unit `n` this is
exactly `|n.z| > 9/10`, see `refVec_unit_gt` / `refVec_unit_le`; it is
invariant under positive rescaling, see `refVec_smul`, so it computes
the source's test even from the unnormalised direction). -/
def refVec (n : Vec3 K) : Vec3 K :=
  if 81 * normSq n < 100 * n.z ^ 2 then ⟨1, 0, 0⟩ else ⟨0, 0, 1⟩

/-- The reference-vector selection as the SPEC (and claim C6) words
it: "pick `(1,0,0)` as reference unless the normal is nearly parallel
to it (dot > 0.9), in which case fall back to `(0,0,1)`" — i.e. the
test reads the dot product with `(1,0,0)`, the x-component, instead of
the z-component.  Stated in the same squared scale-invariant form, for
comparison with the implemented `refVec`. -/
def specRefVec (n : Vec3 K) : Vec3 K :=
  if 81 * normSq n < 100 * n.x ^ 2 then ⟨0, 0, 1⟩ else ⟨1, 0, 0⟩

/-- The four rectangle corners (operations.py lines 221-235): local
2D offsets `(-w/2,-h/2), (w/2,-h/2), (w/2,h/2), (-w/2,h/2)` placed by
`center_global + lp0 * local_x + lp1 * local_y`. -/
def rectangleCorners (center : Vec3 K) (width height : K)
    (local_x local_y : Vec3 K) : List (Vec3 K) :=
  [center + (-(width / 2)) • local_x + (-(height / 2)) • local_y,
   center + (width / 2) • local_x + (-(height / 2)) • local_y,
   center + (width / 2) • local_x + (height / 2) • local_y,
   center + (-(width / 2)) • local_x + (height / 2) • local_y]

/-- Model of `make_rectangle_rwire` (operations.py lines 180-247):
validates `width`/`height`; resolves the frame
(`center_global = cs.transform_point(center)`,
`normal_global = cs.transform_point(normal) - cs.origin`); normalises
the normal; picks the reference vector (`refVec`); sets
`local_x = normalize(cross(normal_vec, ref_vec))` and
`local_y = normalize(cross(normal_vec, local_x))`; emits the four
corners (the kernel edge/wire assembly from the corners is abstracted
to the corner list).  The two normalisations cannot be computed in
exact rational arithmetic, so the normalised `local_x`/`local_y` are
taken as arguments, tied to `normal` in the claim theorems by
`Normalizes` hypotheses along the chain just described. -/
def make_rectangle_rwire (cs : CoordinateSystem K) (width height : K)
    (center normal : Vec3 K) (local_x local_y : Vec3 K) :
    Except String (List (Vec3 K)) :=
  if width ≤ 0 ∨ height ≤ 0 then .error "宽度和高度必须大于0"
  else .ok (rectangleCorners (transform_point cs center) width height
    local_x local_y)

@[ext]
theorem Vec3.ext {u v : Vec3 K} (hx : u.x = v.x) (hy : u.y = v.y)
    (hz : u.z = v.z) : u = v := by
  cases u; cases v; simp_all

@[simp] theorem Vec3.add_x (u v : Vec3 K) : (u + v).x = u.x + v.x := rfl

@[simp] theorem Vec3.add_y (u v : Vec3 K) : (u + v).y = u.y + v.y := rfl

@[simp] theorem Vec3.add_z (u v : Vec3 K) : (u + v).z = u.z + v.z := rfl

@[simp] theorem Vec3.sub_x (u v : Vec3 K) : (u - v).x = u.x - v.x := rfl

@[simp] theorem Vec3.sub_y (u v : Vec3 K) : (u - v).y = u.y - v.y := rfl

@[simp] theorem Vec3.sub_z (u v : Vec3 K) : (u - v).z = u.z - v.z := rfl

@[simp] theorem Vec3.smul_x (a : K) (v : Vec3 K) : (a • v).x = a * v.x := rfl

@[simp] theorem Vec3.smul_y (a : K) (v : Vec3 K) : (a • v).y = a * v.y := rfl

@[simp] theorem Vec3.smul_z (a : K) (v : Vec3 K) : (a • v).z = a * v.z := rfl

@[simp] theorem Vec3.zero_x : (0 : Vec3 K).x = 0 := rfl

@[simp] theorem Vec3.zero_y : (0 : Vec3 K).y = 0 := rfl

@[simp] theorem Vec3.zero_z : (0 : Vec3 K).z = 0 := rfl

theorem Vec3.add_def (u v : Vec3 K) :
    u + v = ⟨u.x + v.x, u.y + v.y, u.z + v.z⟩ := rfl

theorem Vec3.sub_def (u v : Vec3 K) :
    u - v = ⟨u.x - v.x, u.y - v.y, u.z - v.z⟩ := rfl

theorem Vec3.smul_def (a : K) (v : Vec3 K) :
    a • v = ⟨a * v.x, a * v.y, a * v.z⟩ := rfl

theorem normSq_eq_sum_sq (v : Vec3 K) :
    normSq v = v.x ^ 2 + v.y ^ 2 + v.z ^ 2 := by
  simp only [normSq, dot]
  ring

theorem normSq_nonneg (v : Vec3 K) : 0 ≤ normSq v := by
  rw [normSq_eq_sum_sq]
  positivity

theorem normSq_smul (a : K) (v : Vec3 K) :
    normSq (a • v) = a ^ 2 * normSq v := by
  simp only [normSq, dot, Vec3.smul_x, Vec3.smul_y, Vec3.smul_z]
  ring

theorem dot_smul_left (a : K) (u v : Vec3 K) :
    dot (a • u) v = a * dot u v := by
  simp only [dot, Vec3.smul_x, Vec3.smul_y, Vec3.smul_z]
  ring

theorem dot_smul_smul (a b : K) (u v : Vec3 K) :
    dot (a • u) (b • v) = a * b * dot u v := by
  simp only [dot, Vec3.smul_x, Vec3.smul_y, Vec3.smul_z]
  ring

/-- The cross product is orthogonal to its first argument. -/
theorem dot_cross_left (u v : Vec3 K) : dot (cross u v) u = 0 := by
  simp only [dot, cross]
  ring

/-- The cross product is orthogonal to its second argument. -/
theorem dot_cross_right (u v : Vec3 K) : dot (cross u v) v = 0 := by
  simp only [dot, cross]
  ring

/-- Bilinearity of the cross product in the scalar arguments: used to
relate `cross` of normalised vectors to `cross` of the raw inputs. -/
theorem cross_smul_smul (a b : K) (u v : Vec3 K) :
    cross (a • u) (b • v) = (a * b) • cross u v := by
  ext <;> simp only [cross, Vec3.smul_x, Vec3.smul_y, Vec3.smul_z] <;> ring

/-- A vector produced by normalisation has squared norm exactly 1. -/
theorem Normalizes.normSq_eq_one {v u : Vec3 K} (h : Normalizes v u) :
    normSq u = 1 := by
  obtain ⟨s, hs, hsq, rfl⟩ := h
  rw [normSq_smul, ← hsq]
  field_simp

theorem Normalizes.dot_left {v u : Vec3 K} (h : Normalizes v u) (w : Vec3 K) :
    ∃ s : K, 0 < s ∧ dot u w = s⁻¹ * dot v w := by
  obtain ⟨s, hs, _, rfl⟩ := h
  exact ⟨s, hs, dot_smul_left s⁻¹ v w⟩

/-- In the world frame the point transform is the identity. -/
theorem transform_point_WORLD_CS (p : Vec3 K) :
    transform_point WORLD_CS p = p := by
  ext <;> simp [transform_point, WORLD_CS]

/-- In the world frame the vector transform is the identity. -/
theorem transform_vec_WORLD_CS (v : Vec3 K) :
    transform_vec WORLD_CS v = v := by
  ext <;> simp [transform_vec, transform_point, WORLD_CS]

/-- C1: the adapter maps user space to kernel space by
`(x, y, z) ↦ (x, z, -y)`, kernel space back to user space by
`(x, y, z) ↦ (x, -z, y)`, and the composition
`from_cq_coords (to_cq_coords p)` is the identity (exactly, hence in
particular within any floating-point tolerance). -/
theorem C1_coordinate_roundtrip (p : Vec3 K) :
    to_cq_coords p = ⟨p.x, p.z, -p.y⟩ ∧
    from_cq_coords p = ⟨p.x, -p.z, p.y⟩ ∧
    from_cq_coords (to_cq_coords p) = p := by
  refine ⟨rfl, rfl, ?_⟩
  ext <;> simp [to_cq_coords, from_cq_coords]

/-- C2: `transform_point` is exactly
`origin + p.x • x_axis + p.y • y_axis + p.z • z_axis`; the derived
vector transform `transform_point cs v - cs.origin` does not depend on
the origin, and changing only the origin shifts every point transform
by exactly that translation. -/
theorem C2_transform_point_decomposition (cs : CoordinateSystem K)
    (o : Vec3 K) (p v : Vec3 K) :
    transform_point cs p =
      cs.origin + p.x • cs.x_axis + p.y • cs.y_axis + p.z • cs.z_axis ∧
    transform_vec { cs with origin := o } v = transform_vec cs v ∧
    transform_point { cs with origin := o } p =
      transform_point cs p + (o - cs.origin) := by
  refine ⟨rfl, ?_, ?_⟩
  · ext <;> simp [transform_vec, transform_point] <;> ring
  · ext <;> simp [transform_point] <;> ring

/-- Any nest of scoped blocks leaves the frame stack exactly as it
found it, whether bodies complete or raise. -/
theorem runProg_preserves_stack (p : FrameProg K)
    (s : List (CoordinateSystem K)) : (runProg p s).1 = s := by
  induction p generalizing s with
  | done => rfl
  | panic => rfl
  | scope cs body rest ihb ihr =>
    simp only [runProg]
    split
    · rw [ihr, ihb, List.dropLast_concat]
    · simp [ihb, List.dropLast_concat]

/-- C3: entering a scoped block pushes its frame and exiting (normal
return or raise) pops exactly that frame, so after any nest of scoped
blocks the stack — hence `get_current_cs` — is what it was before;
immediately inside a block the current frame is the pushed one; the
stack starts as `[WORLD_CS]`, on which `get_current_cs` succeeds, and
`get_current_cs` succeeds on every non-empty stack. -/
theorem C3_stack_discipline :
    (∀ (p : FrameProg K) (s : List (CoordinateSystem K)),
        (runProg p s).1 = s ∧
        get_current_cs (runProg p s).1 = get_current_cs s) ∧
    (∀ (cs : CoordinateSystem K) (s : List (CoordinateSystem K)),
        get_current_cs (s ++ [cs]) = some cs) ∧
    get_current_cs [(WORLD_CS : CoordinateSystem K)] = some WORLD_CS := by
  refine ⟨fun p s => ?_, fun cs s => ?_, rfl⟩
  · rw [runProg_preserves_stack]
    exact ⟨rfl, rfl⟩
  · simp [get_current_cs]

theorem abs_le_iff_sq_le_sq {x eps : K} (heps : 0 ≤ eps) :
    |x| ≤ eps ↔ x ^ 2 ≤ eps ^ 2 := by
  rw [sq_le_sq, abs_of_nonneg heps]

/-- Bridging lemma: for normalised `uu`, `vv` of `u`, `v`, the
tolerance check `|uu ⬝ vv| ≤ eps` is exactly `orthoWithinSq eps u v`. -/
theorem orthoWithinSq_iff {u v uu vv : Vec3 K} {eps : K}
    (hu : Normalizes u uu) (hv : Normalizes v vv) (heps : 0 ≤ eps) :
    |dot uu vv| ≤ eps ↔ orthoWithinSq eps u v := by
  obtain ⟨s, hs, hsq, rfl⟩ := hu
  obtain ⟨t, ht, htq, rfl⟩ := hv
  have hdot : dot (s⁻¹ • u) (t⁻¹ • v) = s⁻¹ * t⁻¹ * dot u v := by
    simp only [dot, Vec3.smul_x, Vec3.smul_y, Vec3.smul_z]
    ring
  rw [abs_le_iff_sq_le_sq heps, hdot, orthoWithinSq, ← hsq, ← htq]
  have hs0 : (0 : K) < s ^ 2 := by positivity
  have ht0 : (0 : K) < t ^ 2 := by positivity
  rw [mul_pow, mul_pow, inv_pow, inv_pow]
  constructor
  · intro h
    have := mul_le_mul_of_nonneg_left h (le_of_lt (mul_pos hs0 ht0))
    calc (dot u v) ^ 2
        = s ^ 2 * t ^ 2 * ((s ^ 2)⁻¹ * (t ^ 2)⁻¹ * (dot u v) ^ 2) := by
          field_simp
      _ ≤ s ^ 2 * t ^ 2 * (eps ^ 2) := this
      _ = eps ^ 2 * (s ^ 2 * t ^ 2) := by ring
  · intro h
    have := mul_le_mul_of_nonneg_left h
      (le_of_lt (mul_pos (inv_pos.mpr hs0) (inv_pos.mpr ht0)))
    calc (s ^ 2)⁻¹ * (t ^ 2)⁻¹ * (dot u v) ^ 2
        = (s ^ 2)⁻¹ * (t ^ 2)⁻¹ * ((dot u v) ^ 2) := by ring
      _ ≤ (s ^ 2)⁻¹ * (t ^ 2)⁻¹ * (eps ^ 2 * (s ^ 2 * t ^ 2)) := this
      _ = eps ^ 2 := by field_simp

/-- C4 counterexample: the constructor accepts
`x_axis = (1,0,0), y_axis = (1,1,0)` (they are nonzero and
non-parallel), yet the constructed frame's `x_axis` and `y_axis`
directions are NOT orthogonal within `1e-6`: the normalised dot
product is `1/√2`.  (`orthoWithinSq` is the exact squared form of the
tolerance check, see `orthoWithinSq_iff`.) -/
theorem C4_counterexample :
    mkCoordinateSystem (K := ℚ) ⟨0, 0, 0⟩ ⟨1, 0, 0⟩ ⟨1, 1, 0⟩ =
      .ok ⟨⟨0, 0, 0⟩, ⟨1, 0, 0⟩, ⟨1, 1, 0⟩, ⟨0, 0, 1⟩⟩ ∧
    ¬ orthoWithinSq (1 / 1000000 : ℚ) ⟨1, 0, 0⟩ ⟨1, 1, 0⟩ := by
  constructor
  · norm_num [mkCoordinateSystem, normSq, dot, cross]
  · simp only [orthoWithinSq, dot, normSq]
    norm_num

/-- C4 amended: a successfully constructed frame has unit axes (once
normalised, as the constructor does), and its `z_axis` is exactly
orthogonal to `x_axis` and `y_axis`; but `x_axis` and `y_axis` are
orthogonal only when the two INPUT directions already were — the
constructor never re-orthogonalises `y_axis` against `x_axis`. -/
theorem C4_amended (o x y : Vec3 K) (cs : CoordinateSystem K)
    (xu yu zu : Vec3 K)
    (hmk : mkCoordinateSystem o x y = .ok cs)
    (hx : Normalizes cs.x_axis xu) (hy : Normalizes cs.y_axis yu)
    (hz : Normalizes cs.z_axis zu) :
    normSq xu = 1 ∧ normSq yu = 1 ∧ normSq zu = 1 ∧
    dot zu xu = 0 ∧ dot zu yu = 0 ∧
    (dot xu yu = 0 ↔ dot x y = 0) := by
  have hcs : cs = ⟨o, x, y, cross x y⟩ := by
    simp only [mkCoordinateSystem] at hmk
    split_ifs at hmk
    exact (Except.ok.inj hmk).symm
  subst hcs
  obtain ⟨s, hs, hssq, rfl⟩ := hx
  obtain ⟨t, ht, htsq, rfl⟩ := hy
  obtain ⟨r, hr, hrsq, rfl⟩ := hz
  refine ⟨?_, ?_, ?_, ?_, ?_, ?_⟩
  · rw [normSq_smul, ← hssq]; field_simp
  · rw [normSq_smul, ← htsq]; field_simp
  · rw [normSq_smul, ← hrsq]; field_simp
  · show dot (r⁻¹ • cross x y) (s⁻¹ • x) = 0
    rw [dot_smul_smul, dot_cross_left, mul_zero]
  · show dot (r⁻¹ • cross x y) (t⁻¹ • y) = 0
    rw [dot_smul_smul, dot_cross_right, mul_zero]
  · show (dot (s⁻¹ • x) (t⁻¹ • y) = 0 ↔ dot x y = 0)
    rw [dot_smul_smul]
    constructor
    · intro h
      rcases mul_eq_zero.mp h with h' | h'
      · rcases mul_eq_zero.mp h' with h'' | h''
        · exact absurd h'' (inv_ne_zero (ne_of_gt hs))
        · exact absurd h'' (inv_ne_zero (ne_of_gt ht))
      · exact h'
    · intro h
      rw [h, mul_zero]

/-- Witness for `C4_amended` at the concrete input
`origin = 0, x = (1,0,0), y = (0,1,0)` (roots all 1). -/
theorem C4_amended_witness :
    normSq (⟨1, 0, 0⟩ : Vec3 ℚ) = 1 ∧ normSq (⟨0, 1, 0⟩ : Vec3 ℚ) = 1 ∧
    normSq (⟨0, 0, 1⟩ : Vec3 ℚ) = 1 ∧
    dot (⟨0, 0, 1⟩ : Vec3 ℚ) ⟨1, 0, 0⟩ = 0 ∧
    dot (⟨0, 0, 1⟩ : Vec3 ℚ) ⟨0, 1, 0⟩ = 0 ∧
    (dot (⟨1, 0, 0⟩ : Vec3 ℚ) ⟨0, 1, 0⟩ = 0 ↔
      dot (⟨1, 0, 0⟩ : Vec3 ℚ) ⟨0, 1, 0⟩ = 0) :=
  C4_amended ⟨0, 0, 0⟩ ⟨1, 0, 0⟩ ⟨0, 1, 0⟩
    ⟨⟨0, 0, 0⟩, ⟨1, 0, 0⟩, ⟨0, 1, 0⟩, ⟨0, 0, 1⟩⟩
    ⟨1, 0, 0⟩ ⟨0, 1, 0⟩ ⟨0, 0, 1⟩
    (by norm_num [mkCoordinateSystem, normSq, dot, cross])
    ⟨1, by norm_num, by simp [normSq, dot], by apply Vec3.ext <;> simp⟩
    ⟨1, by norm_num, by simp [normSq, dot], by apply Vec3.ext <;> simp⟩
    ⟨1, by norm_num, by simp [normSq, dot], by apply Vec3.ext <;> simp⟩

/-- C5: construction fails exactly when an input axis has zero length
or the two input axes are parallel (zero cross product); in particular
`x_axis = (1,0,0), y_axis = (2,0,0)` is rejected; and a successful
construction never carries a zero `z_axis` direction. -/
theorem C5_degenerate_rejection (o x y : Vec3 K) :
    ((∃ e, mkCoordinateSystem o x y = .error e) ↔
      normSq x = 0 ∨ normSq y = 0 ∨ normSq (cross x y) = 0) ∧
    (∀ cs, mkCoordinateSystem o x y = .ok cs → ¬ normSq cs.z_axis = 0) ∧
    mkCoordinateSystem (K := K) ⟨0, 0, 0⟩ ⟨1, 0, 0⟩ ⟨2, 0, 0⟩ =
      .error "不能归一化零向量" := by
  refine ⟨?_, ?_, ?_⟩
  · simp only [mkCoordinateSystem]
    split_ifs with h1 h2 h3 <;> simp_all
  · intro cs hok
    simp only [mkCoordinateSystem] at hok
    split_ifs at hok with h1 h2 h3
    rw [← Except.ok.inj hok]
    exact h3
  · have h1 : normSq (⟨1, 0, 0⟩ : Vec3 K) = 1 := by
      simp [normSq, dot]
    have h2 : normSq (⟨2, 0, 0⟩ : Vec3 K) = 4 := by
      simp [normSq, dot]
      norm_num
    have h3 : cross (⟨1, 0, 0⟩ : Vec3 K) ⟨2, 0, 0⟩ = ⟨0, 0, 0⟩ := by
      ext <;> simp [cross]
    simp [mkCoordinateSystem, h1, h2, h3, normSq, dot]

/-- Witness for `C5_degenerate_rejection`: a zero `x_axis` is
rejected, via the left-to-right use of the characterisation at a
concrete input. -/
theorem C5_witness :
    normSq (⟨0, 0, 0⟩ : Vec3 ℚ) = 0 ∧
    (∃ e, mkCoordinateSystem (K := ℚ) ⟨0, 0, 0⟩ ⟨0, 0, 0⟩ ⟨0, 1, 0⟩ =
      .error e) :=
  ⟨by simp [normSq, dot],
    (C5_degenerate_rejection ⟨0, 0, 0⟩ ⟨0, 0, 0⟩ ⟨0, 1, 0⟩).1.mpr
      (Or.inl (by simp [normSq, dot]))⟩

theorem dictLookup_dictInsert_self (l : List (String × String))
    (k v : String) : dictLookup (dictInsert l k v) k = some v := by
  induction l with
  | nil => simp [dictInsert, dictLookup]
  | cons kv rest ih =>
    obtain ⟨k1, v1⟩ := kv
    by_cases h : k1 = k
    · subst h
      simp [dictInsert, dictLookup]
    · simp [dictInsert, dictLookup, h, ih]

theorem dictLookup_dictInsert_ne (l : List (String × String))
    {k k2 : String} (v : String) (h : k ≠ k2) :
    dictLookup (dictInsert l k v) k2 = dictLookup l k2 := by
  induction l with
  | nil => simp [dictInsert, dictLookup, h]
  | cons kv rest ih =>
    obtain ⟨k1, v1⟩ := kv
    by_cases h1 : k1 = k
    · subst h1
      simp [dictInsert, dictLookup, h]
    · simp [dictInsert, dictLookup, h1, ih]

theorem dictLookup_eq_none_of_not_mem (l : List (String × String))
    {k : String} (h : k ∉ dictKeys l) : dictLookup l k = none := by
  induction l with
  | nil => rfl
  | cons kv rest ih =>
    obtain ⟨k1, v1⟩ := kv
    simp only [dictKeys, List.map_cons, List.mem_cons] at h
    push_neg at h
    simp [dictLookup, Ne.symm h.1, ih (by simpa [dictKeys] using h.2)]

/-- The key fact about Python dict unpacking `{**a, **b}`: lookups see
`b` first, then `a` (given that `b`, being a dict, has no duplicate
keys). -/
theorem dictLookup_dictMerge (a b : List (String × String))
    (hnd : (dictKeys b).Nodup) (k : String) :
    dictLookup (dictMerge a b) k =
      optOr (dictLookup b k) (dictLookup a k) := by
  induction b generalizing a with
  | nil => simp [dictMerge, dictLookup, optOr]
  | cons kv rest ih =>
    obtain ⟨k1, v1⟩ := kv
    simp only [dictKeys, List.map_cons, List.nodup_cons] at hnd
    have step : dictMerge a ((k1, v1) :: rest) =
        dictMerge (dictInsert a k1 v1) rest := rfl
    rw [step, ih _ hnd.2]
    by_cases h : k1 = k
    · subst h
      have hrest : dictLookup rest k1 = none :=
        dictLookup_eq_none_of_not_mem rest (by simpa [dictKeys] using hnd.1)
      simp [dictLookup, hrest, optOr, dictLookup_dictInsert_self]
    · simp [dictLookup, h, dictLookup_dictInsert_ne _ _ h]

/-- C7: for `count ≥ 1` and `angle > 0` the radial pattern succeeds
with exactly `count` copies, the `i`-th rotated by `(angle/count) * i`
(step `angle/count`, NOT `angle/(count-1)`) about the frame-resolved
axis through the frame-resolved center, for `i = 0 .. count-1`; with
`count = 4` the four copies sit at offsets
`0, angle/4, angle/4*2, angle/4*3`; and it fails whenever `count < 1`
or `angle ≤ 0`. -/
theorem C7_radial_pattern_spacing (cs : CoordinateSystem K)
    (shape : TaggedShape K) (center axis : Vec3 K) (count : ℤ)
    (angle : K) :
    (1 ≤ count → 0 < angle →
      ∃ r, radial_pattern_rcompound cs shape center axis count angle =
          .ok r ∧
        ∃ gs, r.geom = .compound gs ∧ gs.length = count.toNat ∧
          ∀ i, ∀ h : i < gs.length,
            gs.get ⟨i, h⟩ =
              .rotated (angle / (count : K) * (i : K))
                (transform_point cs axis - cs.origin)
                (transform_point cs center) shape.geom) ∧
    (0 < angle →
      ∃ r, radial_pattern_rcompound cs shape center axis 4 angle =
          .ok r ∧
        r.geom = .compound
          [.rotated 0 (transform_point cs axis - cs.origin)
            (transform_point cs center) shape.geom,
           .rotated (angle / 4) (transform_point cs axis - cs.origin)
            (transform_point cs center) shape.geom,
           .rotated (angle / 4 * 2) (transform_point cs axis - cs.origin)
            (transform_point cs center) shape.geom,
           .rotated (angle / 4 * 3) (transform_point cs axis - cs.origin)
            (transform_point cs center) shape.geom]) ∧
    (count < 1 ∨ angle ≤ 0 →
      ∃ e, radial_pattern_rcompound cs shape center axis count angle =
        .error e) := by
  refine ⟨?_, ?_, ?_⟩
  · intro hc ha
    have hc' : ¬ count ≤ 0 := by omega
    have ha' : ¬ angle ≤ 0 := not_le.mpr ha
    refine ⟨add_tag
      { geom := .compound (((List.range count.toNat).map
          (fun (i : ℕ) =>
            rotate_shape cs shape (angle / (count : K) * (i : K))
              axis center)).map TaggedShape.geom)
        tags := shape.tags
        metadata := shape.metadata } "radial_pattern", ?_, _, rfl, ?_, ?_⟩
    · simp only [radial_pattern_rcompound, if_neg hc', if_neg ha']
    · simp
    · intro i h
      simp only [List.length_map, List.length_range] at h
      simp [List.get_eq_getElem, List.getElem_map, List.getElem_range,
        rotate_shape]
  · intro ha
    have ha' : ¬ angle ≤ 0 := not_le.mpr ha
    have h4 : ¬ (4 : ℤ) ≤ 0 := by omega
    refine ⟨add_tag
      { geom := .compound (((List.range (4 : ℤ).toNat).map
          (fun (i : ℕ) =>
            rotate_shape cs shape (angle / ((4 : ℤ) : K) * (i : K))
              axis center)).map TaggedShape.geom)
        tags := shape.tags
        metadata := shape.metadata } "radial_pattern", ?_, ?_⟩
    · simp only [radial_pattern_rcompound, if_neg h4, if_neg ha']
    · show Geom.compound _ = _
      have h44 : (4 : ℤ).toNat = 4 := rfl
      rw [h44]
      simp [List.range_succ, rotate_shape]
  · intro h
    simp only [radial_pattern_rcompound]
    split_ifs with h1 h2
    · exact ⟨_, rfl⟩
    · exact ⟨_, rfl⟩
    · rcases h with h | h
      · omega
      · exact absurd h h2

/-- Witness for `C7_radial_pattern_spacing`: the world frame,
`count = 4`, `angle = 8`. -/
theorem C7_witness :
    (1 : ℤ) ≤ 4 ∧ (0 : ℚ) < 8 ∧
    (∃ r, radial_pattern_rcompound (K := ℚ) WORLD_CS
        ⟨.base 0, ∅, []⟩ ⟨0, 0, 0⟩ ⟨0, 0, 1⟩ 4 8 = .ok r ∧
      ∃ gs, r.geom = .compound gs ∧ gs.length = (4 : ℤ).toNat ∧
        ∀ i, ∀ h : i < gs.length,
          gs.get ⟨i, h⟩ =
            .rotated ((8 : ℚ) / ((4 : ℤ) : ℚ) * (i : ℚ))
              (transform_point WORLD_CS ⟨0, 0, 1⟩ - WORLD_CS.origin)
              (transform_point WORLD_CS ⟨0, 0, 0⟩) (Geom.base 0)) :=
  ⟨by norm_num, by norm_num,
    (C7_radial_pattern_spacing WORLD_CS ⟨.base 0, ∅, []⟩ ⟨0, 0, 0⟩
      ⟨0, 0, 1⟩ 4 8).1 (by norm_num) (by norm_num)⟩

/-- C8: for `count ≥ 1` and `spacing > 0`, given the normalised
frame-resolved direction `dhat`, the linear pattern succeeds with
exactly `count` copies, the `i`-th being the translation of the input
by the vector `(spacing * i) • dhat` for `i = 0 .. count-1`; in the
world frame with `direction=(1,0,0), count=3, spacing=2` the effective
copy translations are `(0,0,0), (2,0,0), (4,0,0)` (x offsets 0, 2, 4);
and it fails — before any copy is made, the guards precede the loop —
whenever `count < 1` or `spacing ≤ 0`. -/
theorem C8_linear_pattern_spacing (cs : CoordinateSystem K)
    (shape : TaggedShape K) (direction : Vec3 K) (count : ℤ)
    (spacing : K) (dhat : Vec3 K) :
    (Normalizes (transform_vec cs direction) dhat → 1 ≤ count →
      0 < spacing →
      ∃ r, linear_pattern_rcompound cs shape direction count spacing dhat =
          .ok r ∧
        ∃ gs, r.geom = .compound gs ∧ gs.length = count.toNat ∧
          ∀ i, ∀ h : i < gs.length,
            gs.get ⟨i, h⟩ =
              (translate_shape cs shape ((spacing * (i : K)) • dhat)).geom) ∧
    (linear_pattern_rcompound (K := K) WORLD_CS shape ⟨1, 0, 0⟩ 3 2
        ⟨1, 0, 0⟩ =
      .ok (add_tag
        { geom := .compound
            [.translated ⟨0, 0, 0⟩ shape.geom,
             .translated ⟨2, 0, 0⟩ shape.geom,
             .translated ⟨4, 0, 0⟩ shape.geom]
          tags := shape.tags
          metadata := shape.metadata } "linear_pattern")) ∧
    (count < 1 ∨ spacing ≤ 0 →
      ∃ e, linear_pattern_rcompound cs shape direction count spacing dhat =
        .error e) := by
  refine ⟨?_, ?_, ?_⟩
  · intro hdhat hc hs
    have hc' : ¬ count ≤ 0 := by omega
    have hs' : ¬ spacing ≤ 0 := not_le.mpr hs
    refine ⟨add_tag
      { geom := .compound (((List.range count.toNat).map
          (fun (i : ℕ) =>
            translate_shape cs shape ((spacing * (i : K)) • dhat))).map
              TaggedShape.geom)
        tags := shape.tags
        metadata := shape.metadata } "linear_pattern", ?_, _, rfl, ?_, ?_⟩
    · simp only [linear_pattern_rcompound, if_neg hc', if_neg hs']
    · simp
    · intro i h
      simp only [List.length_map, List.length_range] at h
      simp [List.get_eq_getElem, List.getElem_map, List.getElem_range]
  · have h3 : ¬ (3 : ℤ) ≤ 0 := by omega
    have h2 : ¬ (2 : K) ≤ 0 := by norm_num
    have h33 : (3 : ℤ).toNat = 3 := rfl
    simp only [linear_pattern_rcompound, if_neg h3, if_neg h2, h33]
    norm_num [List.range_succ, translate_shape, add_tag, transform_point,
      WORLD_CS, Vec3.smul_def, Vec3.add_def, Vec3.sub_def]
  · intro h
    simp only [linear_pattern_rcompound]
    split_ifs with h1 h2
    · exact ⟨_, rfl⟩
    · exact ⟨_, rfl⟩
    · rcases h with h | h
      · omega
      · exact absurd h h2

/-- Witness for `C8_linear_pattern_spacing`: world frame, direction
`(1,0,0)` (already unit), `count = 3`, `spacing = 2`. -/
theorem C8_witness :
    Normalizes (transform_vec WORLD_CS ⟨1, 0, 0⟩) (⟨1, 0, 0⟩ : Vec3 ℚ) ∧
    (1 : ℤ) ≤ 3 ∧ (0 : ℚ) < 2 ∧
    (∃ r, linear_pattern_rcompound (K := ℚ) WORLD_CS ⟨.base 0, ∅, []⟩
        ⟨1, 0, 0⟩ 3 2 ⟨1, 0, 0⟩ = .ok r ∧
      ∃ gs, r.geom = .compound gs ∧ gs.length = (3 : ℤ).toNat ∧
        ∀ i, ∀ h : i < gs.length,
          gs.get ⟨i, h⟩ =
            (translate_shape (K := ℚ) WORLD_CS ⟨.base 0, ∅, []⟩
              (((2 : ℚ) * (i : ℚ)) • ⟨1, 0, 0⟩)).geom) :=
  ⟨⟨1, by norm_num, by simp [transform_vec_WORLD_CS, normSq, dot],
      by apply Vec3.ext <;> simp [transform_vec_WORLD_CS]⟩,
    by norm_num, by norm_num,
    (C8_linear_pattern_spacing WORLD_CS ⟨.base 0, ∅, []⟩ ⟨1, 0, 0⟩ 3 2
      ⟨1, 0, 0⟩).1
      ⟨1, by norm_num, by simp [transform_vec_WORLD_CS, normSq, dot],
        by apply Vec3.ext <;> simp [transform_vec_WORLD_CS]⟩
      (by norm_num) (by norm_num)⟩

/-- C9: the union result's tag set is exactly the set union of the two
inputs' tag sets (membership characterised elementwise), and its
metadata is the shallow merge in which the second input wins on any
key collision: a lookup sees `solid2`'s value when the key is bound
there and `solid1`'s value otherwise. -/
theorem C9_union_tags_metadata (solid1 solid2 : TaggedShape K) :
    (union_rsolid solid1 solid2).tags = solid1.tags ∪ solid2.tags ∧
    (∀ t, t ∈ (union_rsolid solid1 solid2).tags ↔
      t ∈ solid1.tags ∨ t ∈ solid2.tags) ∧
    ((dictKeys solid2.metadata).Nodup →
      ∀ k, dictLookup (union_rsolid solid1 solid2).metadata k =
        optOr (dictLookup solid2.metadata k)
          (dictLookup solid1.metadata k)) := by
  refine ⟨rfl, fun t => ?_, fun hnd k => ?_⟩
  · simp [union_rsolid, Finset.mem_union]
  · exact dictLookup_dictMerge solid1.metadata solid2.metadata hnd k

/-- Witness for `C9_union_tags_metadata`: concrete solids with a
colliding metadata key `b`; the merged value is the second solid's. -/
theorem C9_witness :
    (dictKeys [("b", "3"), ("c", "4")]).Nodup ∧
    dictLookup (union_rsolid (K := ℚ)
        ⟨.base 0, {"s1"}, [("a", "1"), ("b", "2")]⟩
        ⟨.base 1, {"s2"}, [("b", "3"), ("c", "4")]⟩).metadata "b" =
      optOr (dictLookup [("b", "3"), ("c", "4")] "b")
        (dictLookup [("a", "1"), ("b", "2")] "b") :=
  ⟨by simp [dictKeys],
    (C9_union_tags_metadata (K := ℚ)
      ⟨.base 0, {"s1"}, [("a", "1"), ("b", "2")]⟩
      ⟨.base 1, {"s2"}, [("b", "3"), ("c", "4")]⟩).2.2
      (by simp [dictKeys]) "b"⟩

/-- C10 (code bug): `mirror_shape` fails on EVERY input — in
particular on the world frame with the perfectly valid unit plane
normal `(0,0,1)` (squared norm 1, far from zero) — contradicting the
spec, by which a non-zero normal must yield a mirrored solid tagged
"mirrored". -/
theorem C10_mirror_always_fails (cs : CoordinateSystem K)
    (shape : TaggedShape K) (plane_origin plane_normal : Vec3 K) :
    mirror_shape cs shape plane_origin plane_normal =
      .error "镜像操作失败: AttributeError: CoordinateSystem has no attribute transform_vector" ∧
    normSq (⟨0, 0, 1⟩ : Vec3 K) = 1 ∧
    mirror_shape (K := K) WORLD_CS ⟨.base 0, ∅, []⟩ ⟨0, 0, 0⟩ ⟨0, 0, 1⟩ =
      .error "镜像操作失败: AttributeError: CoordinateSystem has no attribute transform_vector" := by
  refine ⟨rfl, ?_, rfl⟩
  simp [normSq, dot]

theorem refVec_smul {a : K} (ha : 0 < a) (v : Vec3 K) :
    refVec (a • v) = refVec v := by
  have h2 : (0 : K) < a ^ 2 := by positivity
  simp only [refVec, normSq_smul, Vec3.smul_z, mul_pow]
  have hiff : 81 * (a ^ 2 * normSq v) < 100 * (a ^ 2 * v.z ^ 2) ↔
      81 * normSq v < 100 * v.z ^ 2 := by
    rw [mul_left_comm (81 : K), mul_left_comm (100 : K)]
    exact mul_lt_mul_left h2
  simp only [hiff]

theorem refVec_unit_gt {n : Vec3 K} (h1 : normSq n = 1)
    (h : 9 / 10 < |n.z|) : refVec n = ⟨1, 0, 0⟩ := by
  have : 81 * normSq n < 100 * n.z ^ 2 := by
    rw [h1, mul_one]
    have : (9 / 10 : K) ^ 2 < n.z ^ 2 := by
      rw [sq_lt_sq, abs_of_nonneg (by norm_num : (0 : K) ≤ 9 / 10)]
      exact h
    nlinarith [this]
  simp [refVec, this]

theorem refVec_unit_le {n : Vec3 K} (h1 : normSq n = 1)
    (h : |n.z| ≤ 9 / 10) : refVec n = ⟨0, 0, 1⟩ := by
  have : ¬ (81 * normSq n < 100 * n.z ^ 2) := by
    rw [h1, mul_one]
    have : n.z ^ 2 ≤ (9 / 10 : K) ^ 2 := by
      rw [sq_le_sq, abs_of_nonneg (by norm_num : (0 : K) ≤ 9 / 10)]
      exact h
    nlinarith [this]
  simp [refVec, this]

/-- C6 counterexample: for the normal `(0,1,0)` — not nearly parallel
to `(1,0,0)`, so the CLAIM prescribes reference `(1,0,0)` — the code
(testing the z-component) picks `(0,0,1)` instead.  The two recipes
give different in-plane bases (`local_x = (1,0,0), local_y = (0,0,-1)`
in the code, vs `(0,0,-1)` and `(-1,0,0)` under the claim's recipe;
all four involved cross products are already unit, so normalisation is
exact here), producing different corner lists for a 2×2 rectangle at
the origin of the world frame. -/
theorem C6_counterexample :
    refVec (⟨0, 1, 0⟩ : Vec3 ℚ) = ⟨0, 0, 1⟩ ∧
    specRefVec (⟨0, 1, 0⟩ : Vec3 ℚ) = ⟨1, 0, 0⟩ ∧
    refVec (⟨0, 1, 0⟩ : Vec3 ℚ) ≠ specRefVec ⟨0, 1, 0⟩ ∧
    cross (⟨0, 1, 0⟩ : Vec3 ℚ) ⟨0, 0, 1⟩ = ⟨1, 0, 0⟩ ∧
    cross (⟨0, 1, 0⟩ : Vec3 ℚ) ⟨1, 0, 0⟩ = ⟨0, 0, -1⟩ ∧
    cross (⟨0, 1, 0⟩ : Vec3 ℚ) ⟨0, 0, -1⟩ = ⟨-1, 0, 0⟩ ∧
    normSq (⟨1, 0, 0⟩ : Vec3 ℚ) = 1 ∧
    normSq (⟨0, 0, -1⟩ : Vec3 ℚ) = 1 ∧
    normSq (⟨-1, 0, 0⟩ : Vec3 ℚ) = 1 ∧
    make_rectangle_rwire (K := ℚ) WORLD_CS 2 2 ⟨0, 0, 0⟩ ⟨0, 1, 0⟩
        ⟨1, 0, 0⟩ ⟨0, 0, -1⟩ =
      .ok [⟨-1, 0, 1⟩, ⟨1, 0, 1⟩, ⟨1, 0, -1⟩, ⟨-1, 0, -1⟩] ∧
    rectangleCorners (⟨0, 0, 0⟩ : Vec3 ℚ) 2 2 ⟨0, 0, -1⟩ ⟨-1, 0, 0⟩ ≠
      [⟨-1, 0, 1⟩, ⟨1, 0, 1⟩, ⟨1, 0, -1⟩, ⟨-1, 0, -1⟩] := by
  refine ⟨?_, ?_, ?_, ?_, ?_, ?_, ?_, ?_, ?_, ?_, ?_⟩ <;>
    norm_num [refVec, specRefVec, cross, normSq, dot,
      make_rectangle_rwire, rectangleCorners, transform_point, WORLD_CS,
      Vec3.smul_def, Vec3.add_def, Vec3.sub_def]

/-- C6 amended: the reference vector is `(1,0,0)` when the normalised
normal is nearly parallel to the Z axis (`|n̂.z| > 0.9`) and `(0,0,1)`
otherwise (NOT keyed on parallelism with `(1,0,0)` as the claim says);
with that correction the rest of the claim holds: `local_x` and
`local_y` are unit and perpendicular to the normal, and the corners
are `center ± (width/2)•local_x ± (height/2)•local_y` around the
frame-resolved center. -/
theorem C6_rectangle_basis (cs : CoordinateSystem K)
    (width height : K) (center normal nhat lx ly : Vec3 K)
    (hw : 0 < width) (hh : 0 < height)
    (hn : Normalizes (transform_vec cs normal) nhat)
    (hx : Normalizes (cross nhat (refVec nhat)) lx)
    (hy : Normalizes (cross nhat lx) ly) :
    make_rectangle_rwire cs width height center normal lx ly =
      .ok (rectangleCorners (transform_point cs center) width height
        lx ly) ∧
    refVec nhat = refVec (transform_vec cs normal) ∧
    (9 / 10 < |nhat.z| → refVec nhat = ⟨1, 0, 0⟩) ∧
    (|nhat.z| ≤ 9 / 10 → refVec nhat = ⟨0, 0, 1⟩) ∧
    normSq lx = 1 ∧ normSq ly = 1 ∧
    dot lx nhat = 0 ∧ dot ly nhat = 0 := by
  have hunit : normSq nhat = 1 := hn.normSq_eq_one
  obtain ⟨s, hs, hssq, hnh⟩ := hn
  refine ⟨?_, ?_, fun h => refVec_unit_gt hunit h,
    fun h => refVec_unit_le hunit h, hx.normSq_eq_one, hy.normSq_eq_one,
    ?_, ?_⟩
  · rw [make_rectangle_rwire,
      if_neg (not_or.mpr ⟨not_le.mpr hw, not_le.mpr hh⟩)]
  · rw [hnh, refVec_smul (inv_pos.mpr hs)]
  · obtain ⟨t, ht, htsq, rfl⟩ := hx
    rw [dot_smul_left, dot_cross_left, mul_zero]
  · obtain ⟨u, hu, husq, rfl⟩ := hy
    rw [dot_smul_left, dot_cross_left, mul_zero]

/-- Witness for `C6_rectangle_basis`: world frame, 2×2 rectangle at
the origin with normal `(0,1,0)`; every normalisation root is 1. -/
theorem C6_witness :
    (0 : ℚ) < 2 ∧
    Normalizes (transform_vec (K := ℚ) WORLD_CS ⟨0, 1, 0⟩) ⟨0, 1, 0⟩ ∧
    (make_rectangle_rwire (K := ℚ) WORLD_CS 2 2 ⟨0, 0, 0⟩ ⟨0, 1, 0⟩
        ⟨1, 0, 0⟩ ⟨0, 0, -1⟩ =
      .ok (rectangleCorners
        (transform_point (K := ℚ) WORLD_CS ⟨0, 0, 0⟩) 2 2
        ⟨1, 0, 0⟩ ⟨0, 0, -1⟩) ∧
    refVec (⟨0, 1, 0⟩ : Vec3 ℚ) =
      refVec (transform_vec (K := ℚ) WORLD_CS ⟨0, 1, 0⟩) ∧
    (9 / 10 < |(⟨0, 1, 0⟩ : Vec3 ℚ).z| →
      refVec (⟨0, 1, 0⟩ : Vec3 ℚ) = ⟨1, 0, 0⟩) ∧
    (|(⟨0, 1, 0⟩ : Vec3 ℚ).z| ≤ 9 / 10 →
      refVec (⟨0, 1, 0⟩ : Vec3 ℚ) = ⟨0, 0, 1⟩) ∧
    normSq (⟨1, 0, 0⟩ : Vec3 ℚ) = 1 ∧
    normSq (⟨0, 0, -1⟩ : Vec3 ℚ) = 1 ∧
    dot (⟨1, 0, 0⟩ : Vec3 ℚ) ⟨0, 1, 0⟩ = 0 ∧
    dot (⟨0, 0, -1⟩ : Vec3 ℚ) ⟨0, 1, 0⟩ = 0) :=
  ⟨by norm_num,
    ⟨1, by norm_num, by simp [transform_vec_WORLD_CS, normSq, dot],
      by apply Vec3.ext <;> simp [transform_vec_WORLD_CS]⟩,
    C6_rectangle_basis WORLD_CS 2 2 ⟨0, 0, 0⟩ ⟨0, 1, 0⟩ ⟨0, 1, 0⟩
      ⟨1, 0, 0⟩ ⟨0, 0, -1⟩ (by norm_num) (by norm_num)
      ⟨1, by norm_num, by simp [transform_vec_WORLD_CS, normSq, dot],
        by apply Vec3.ext <;> simp [transform_vec_WORLD_CS]⟩
      ⟨1, by norm_num,
        by norm_num [refVec, cross, normSq, dot],
        by apply Vec3.ext <;> norm_num [refVec, cross, normSq, dot]⟩
      ⟨1, by norm_num,
        by norm_num [cross, normSq, dot],
        by apply Vec3.ext <;> norm_num [cross, normSq, dot]⟩⟩

end SimpleCAD
